import Mathlib

/-!
Verification of the glyph representation pipeline of `gllabel`
(`src/lib/gllabel.cpp` and `src/shaders/glyphVertex.glsl`).

The C++ code is shallowly embedded: coordinates (C++ `float` expressions
over FreeType integer font units) are modelled as rationals, machine
integers as `Nat`/`Int` with explicit truncation (`% 2^16`, `% 2^32`)
where the C++ types force it, buffers as functions from indices to
values, and the mutable `GLFontManager` state as explicit state passing.
-/

namespace GLLabel

/-- `kGridMaxSize` (gllabel.cpp line 37): side of one glyph grid, pixels. -/
def kGridMaxSize : ℕ := 20

/-- `kGridAtlasSize` (gllabel.cpp line 38): side of the grid atlas, pixels. -/
def kGridAtlasSize : ℕ := 256

/-- `kBezierAtlasSize` (gllabel.cpp line 39): side of the glyph-data buffer
viewed as a square RGBA8 texture; its capacity is `kBezierAtlasSize²` texels. -/
def kBezierAtlasSize : ℕ := 256

/-- `kAtlasChannels` (gllabel.cpp line 40): RGBA. -/
def kAtlasChannels : ℕ := 4

/-- A quadratic bezier `Bezier2 {e0, c, e1}` with 2D rational points
(the C++ `Vec2` holds floating-point coordinates in font units). -/
structure Bezier2 where
  e0 : ℚ × ℚ
  c : ℚ × ℚ
  e1 : ℚ × ℚ

/-- Default bezier used as the `getD` fallback (never read in-range). -/
def bezDefault : Bezier2 := ⟨(0, 0), (0, 0), (0, 0)⟩

/-- One coordinate store of `write_bezier_to_buffer` (gllabel.cpp lines
430-435): `buffer[k] = coord * UINT16_MAX / glyphSize.axis`.  The C++
right-hand side is floating point and the assignment to `uint16_t`
converts by truncation toward zero, which for the non-negative
normalized coordinates is the floor. -/
def encodeCoord (coord axis : ℚ) : ℕ :=
  (⌊coord * 65535 / axis⌋).toNat

/-- Encoding of one 2D point as two 16-bit half-words (x scaled by
`glyphSize.w`, y by `glyphSize.h`). -/
def encodePoint (p s : ℚ × ℚ) : ℕ × ℕ :=
  (encodeCoord p.1 s.1, encodeCoord p.2 s.2)

/-- `write_bezier_to_buffer` (gllabel.cpp lines 428-437): the six
half-words written for one bezier, in buffer order
`e0.x, e0.y, c.x, c.y, e1.x, e1.y`. -/
def bezierHalfwords (b : Bezier2) (s : ℚ × ℚ) : List ℕ :=
  [encodeCoord b.e0.1 s.1, encodeCoord b.e0.2 s.2,
   encodeCoord b.c.1 s.1, encodeCoord b.c.2 s.2,
   encodeCoord b.e1.1 s.1, encodeCoord b.e1.2 s.2]

/-- `write_glyph_data_to_buffer` (gllabel.cpp lines 439-458): the
half-word sequence written for one glyph: four header half-words
`gridX, gridY, gridWidth, gridHeight` (the parameters are `uint16_t`,
hence the `% 2^16`), followed by six half-words per bezier. -/
def glyphDataHalfwords (bz : List Bezier2) (s : ℚ × ℚ)
    (gridX gridY gridWidth gridHeight : ℕ) : List ℕ :=
  [gridX % 2 ^ 16, gridY % 2 ^ 16, gridWidth % 2 ^ 16, gridHeight % 2 ^ 16] ++
    bz.flatMap (fun b => bezierHalfwords b s)

/-- Byte image of a half-word sequence on the little-endian target:
each 16-bit store puts its low byte first. -/
def bytesOfHalfwords (ws : List ℕ) : List ℕ :=
  ws.flatMap (fun w => [w % 256, w / 256])

/-- The byte sequence `write_glyph_data_to_buffer` leaves in the
glyph-data buffer (RGBA8 texels, 4 bytes each; texel 0 holds bytes 0-3). -/
def glyphDataBytes (bz : List Bezier2) (s : ℚ × ℚ)
    (gridX gridY gridWidth gridHeight : ℕ) : List ℕ :=
  bytesOfHalfwords (glyphDataHalfwords bz s gridX gridY gridWidth gridHeight)

/-- Recomposition of a 16-bit value from its little-endian bytes. -/
def decode16 (lo hi : ℕ) : ℕ := lo + 256 * hi

/-- The half-word buffer of an atlas group after a block store of the
half-words `ws` starting at half-word index `base` (the pointer writes of
`write_glyph_data_to_buffer` / `write_bezier_to_buffer`). -/
def writeHalfwords (buf : ℕ → ℕ) (base : ℕ) (ws : List ℕ) : ℕ → ℕ :=
  fun i => if base ≤ i ∧ i < base + ws.length then ws.getD (i - base) 0 else buf i

/-- The decode of the 32-bit vertex attribute in `glyphVertex.glsl`
(lines 31-32): `vData >> 2u` is the glyph-data offset,
`(vData & 2u) >> 1` is `normX`, `vData & 1u` is `normY`. -/
def shaderDecode (d : ℕ) : ℕ × ℕ × ℕ :=
  (d >>> 2, (d &&& 2) >>> 1, d &&& 1)

/-- One RGBA8 texel of the grid atlas (the four cell slot bytes). -/
def Texel : Type := ℕ × ℕ × ℕ × ℕ

/-- `GLFontManager::Glyph` (declared in `gllabel.hpp`, which is not part of
the sources at hand).  Modelled from the spec: the record holds
`bezierAtlasPos` (glyph-data offset in texels, atlas group index — the
group index is set to `-1` to flag a degenerate no-curves entry, so the
field is modelled as `ℤ × ℤ`), the em-box `size`, the bearing `offset`
and the horizontal `advance`; the assignments populating it are all in
`gllabel.cpp` (lines 500-506 and 549-556). -/
structure Glyph where
  bezierAtlasPos : ℤ × ℤ
  size : ℤ × ℤ
  offset : ℤ × ℤ
  advance : ℤ
deriving DecidableEq

/-- `GLFontManager::AtlasGroup` (declared in `gllabel.hpp`): the two
CPU-side buffers with their cursors and flags.  `glyphDataBuf` is viewed
as a half-word array (two half-words per RGBA8 texel), `gridAtlas` as a
2D texel array.  GL handle ids are omitted. -/
structure AtlasGroup where
  glyphDataBufOffset : ℕ
  nextGridPosX : ℕ
  nextGridPosY : ℕ
  full : Bool
  uploaded : Bool
  glyphDataBuf : ℕ → ℕ
  gridAtlas : ℕ × ℕ → Texel

/-- A fresh zero-initialized atlas group as built by `GetOpenAtlasGroup`
(gllabel.cpp lines 349-352): zeroed buffers, cursors at 0, `uploaded`
set to true. -/
def emptyAtlasGroup : AtlasGroup :=
  { glyphDataBufOffset := 0
    nextGridPosX := 0
    nextGridPosY := 0
    full := false
    uploaded := true
    glyphDataBuf := fun _ => 0
    gridAtlas := fun _ => (0, 0, 0, 0) }

/-- The manager state: the atlas groups and the glyph cache.  The C++
cache is a map `FT_Face → (codepoint → Glyph)`; it is modelled as an
association list keyed by the pair (face handle, codepoint). -/
structure FontManager where
  atlases : List AtlasGroup
  glyphs : List ((ℕ × ℕ) × Glyph)

/-- The state of `GLFontManager::GetFontManager()`'s fresh singleton:
no atlas groups, empty cache. -/
def initMgr : FontManager := { atlases := [], glyphs := [] }

/-- Lookup in the two-level cache map (gllabel.cpp lines 461-467). -/
def cacheFind : List ((ℕ × ℕ) × Glyph) → ℕ → ℕ → Option Glyph
  | [], _, _ => none
  | (k, g) :: rest, face, cp =>
      if k = (face, cp) then some g else cacheFind rest face cp

/-- `this->glyphs[face][point] = glyph` on a missing key (gllabel.cpp
lines 507 and 557). -/
def cacheInsert (m : FontManager) (face cp : ℕ) (g : Glyph) : FontManager :=
  { m with glyphs := ((face, cp), g) :: m.glyphs }

/-- The last atlas group (`this->atlases[this->atlases.size() - 1]`). -/
def lastGroup (m : FontManager) : AtlasGroup :=
  m.atlases.getD (m.atlases.length - 1) emptyAtlasGroup

/-- Replace the last atlas group (writes through the `atlas` pointer). -/
def setLast (m : FontManager) (g : AtlasGroup) : FontManager :=
  { m with atlases := m.atlases.set (m.atlases.length - 1) g }

/-- Mark the last group full and dirty (gllabel.cpp lines 513-514 and
523-524). -/
def markLastFull (m : FontManager) : FontManager :=
  setLast m { lastGroup m with full := true, uploaded := false }

/-- `GLFontManager::GetOpenAtlasGroup` (gllabel.cpp lines 347-374): if
there is no group yet or the last one is full, append a fresh group. -/
def ensureOpen (m : FontManager) : FontManager :=
  if m.atlases.length = 0 ∨ (lastGroup m).full then
    { m with atlases := m.atlases ++ [emptyAtlasGroup] }
  else m

/-- The glyph as loaded from the font: `FT_Load_Glyph` metrics (font
units) together with the quadratic curves extracted by
`GetBeziersForOutline` (declared in `outline.hpp`, external to these
sources; the whole load is treated as a pure oracle of the environment). -/
structure LoadedGlyph where
  width : ℤ
  height : ℤ
  bearingX : ℤ
  bearingY : ℤ
  advance : ℤ
  curves : List Bezier2

/-- The external collaborators of `GetGlyphForCodepoint`: `load` is
FreeType's char-index lookup + `FT_Load_Glyph` + `GetBeziersForOutline`
(`none` models an `FT_Load_Glyph` failure), and `vgrid` is the VGrid
builder of `vgrid.hpp`.  Modelled from the spec: the VGrid builder
(§4.4) and `VGridAtlas::WriteVGridAt` are not among the sources at hand;
only the produced cell texels matter here, so the builder is an opaque
function of the curves, the glyph size and the grid dimensions. -/
structure Env where
  load : ℕ → ℕ → Option LoadedGlyph
  vgrid : List Bezier2 → (ℚ × ℚ) → ℕ → ℕ → (ℕ × ℕ → Texel)

/-- `VGridAtlas::WriteVGridAt` (declared in `vgrid.hpp`).  Modelled from
the spec (§4.5): a `w × h` texel region at `(px, py)` of the grid atlas
receives the grid's cells, one texel per cell. -/
def writeVGridAt (cells : ℕ × ℕ → Texel) (px py w h : ℕ)
    (atlas : ℕ × ℕ → Texel) : ℕ × ℕ → Texel :=
  fun p =>
    if px ≤ p.1 ∧ p.1 < px + w ∧ py ≤ p.2 ∧ p.2 < py + h then
      cells (p.1 - px, p.2 - py)
    else atlas p

/-- `uint16_t bezierPixelLength = 2 + curves.size() * 3` (gllabel.cpp
line 491): the required glyph-data length in texels, truncated to 16
bits by the declared type. -/
def bezierPixelLength (numCurves : ℕ) : ℕ := (2 + numCurves * 3) % 2 ^ 16

/-- The degenerate cache record stored for glyphs with no curves (or a
detected over-budget): `Glyph glyph{}` zero-initialized, then
`bezierAtlasPos[1] = -1` and the metrics filled in (gllabel.cpp lines
500-506). -/
def degenerateGlyph (lg : LoadedGlyph) : Glyph :=
  { bezierAtlasPos := (0, -1)
    size := (lg.width, lg.height)
    offset := (lg.bearingX, lg.bearingY - lg.height)
    advance := lg.advance }

/-- Lines 518-527 of gllabel.cpp: advance/wrap the grid cursor of a
group before placing a `kGridMaxSize`-sized grid.  The returned flag
says the group was marked full and a fresh group must be fetched. -/
def advanceGridCursor (g : AtlasGroup) : AtlasGroup × Bool :=
  if g.nextGridPosX + kGridMaxSize > kGridAtlasSize then
    let g' := { g with nextGridPosX := 0, nextGridPosY := g.nextGridPosY + kGridMaxSize }
    if g'.nextGridPosY ≥ kGridAtlasSize then
      ({ g' with full := true, uploaded := false }, true)
    else (g', false)
  else (g, false)

/-- The grid-cursor check of `GetGlyphForCodepoint` applied to the open
(last) group, fetching a fresh group if it overflowed. -/
def gridAdvanceCheck (m : FontManager) : FontManager :=
  let r := advanceGridCursor (lastGroup m)
  let m' := setLast m r.1
  if r.2 then ensureOpen m' else m'

/-- The result of one `GetGlyphForCodepoint` call: the returned record
(`none` models the `nullptr` of a failed `FT_Load_Glyph`), the manager
state after the call, and instrumentation counting the outline
extractions (`GetBeziersForOutline` calls) and grid builds (`VGrid`
constructions) the call performed. -/
structure GlyphResult where
  res : Option Glyph
  mgr : FontManager
  extractions : ℕ
  gridBuilds : ℕ

/-- The successful-insert tail of `GetGlyphForCodepoint` (gllabel.cpp
lines 511-566): budget check on the glyph-data cursor, grid cursor
check, both buffer writes, cache store, cursor advancement. -/
def successInsert (env : Env) (m : FontManager) (face cp : ℕ)
    (lg : LoadedGlyph) : GlyphResult :=
  let bplen := bezierPixelLength lg.curves.length
  let m2 := if (lastGroup m).glyphDataBufOffset + bplen > kBezierAtlasSize * kBezierAtlasSize
    then ensureOpen (markLastFull m) else m
  let m4 := gridAdvanceCheck m2
  let g := lastGroup m4
  let glyphSize : ℚ × ℚ := ((lg.width : ℚ), (lg.height : ℚ))
  let g' := { g with
    glyphDataBuf := writeHalfwords g.glyphDataBuf (g.glyphDataBufOffset * 2)
      (glyphDataHalfwords lg.curves glyphSize g.nextGridPosX g.nextGridPosY
        kGridMaxSize kGridMaxSize)
    gridAtlas := writeVGridAt (env.vgrid lg.curves glyphSize kGridMaxSize kGridMaxSize)
      g.nextGridPosX g.nextGridPosY kGridMaxSize kGridMaxSize g.gridAtlas
    glyphDataBufOffset := g.glyphDataBufOffset + bplen
    nextGridPosX := g.nextGridPosX + kGridMaxSize
    uploaded := false }
  let record : Glyph :=
    { bezierAtlasPos := ((g.glyphDataBufOffset : ℤ), ((m4.atlases.length - 1 : ℕ) : ℤ))
      size := (lg.width, lg.height)
      offset := (lg.bearingX, lg.bearingY - lg.height)
      advance := lg.advance }
  { res := some record
    mgr := cacheInsert (setLast m4 g') face cp record
    extractions := 1
    gridBuilds := 1 }

/-- The cache-miss body after a successful load (gllabel.cpp lines
479-566): outline extraction and grid build have happened (lines
484-485), then either the degenerate store (zero curves or detected
over-budget, lines 495-509) or the successful insert. -/
def insertGlyph (env : Env) (m : FontManager) (face cp : ℕ)
    (lg : LoadedGlyph) : GlyphResult :=
  let bplen := bezierPixelLength lg.curves.length
  if lg.curves.length = 0 ∨ kBezierAtlasSize * kBezierAtlasSize < bplen then
    let glyph := degenerateGlyph lg
    { res := some glyph, mgr := cacheInsert m face cp glyph
      extractions := 1, gridBuilds := 1 }
  else successInsert env m face cp lg

/-- `GLFontManager::GetGlyphForCodepoint` (gllabel.cpp lines 460-567):
cache lookup, then `GetOpenAtlasGroup`, then the glyph load; a failed
load returns `nullptr` with nothing stored. -/
def getGlyphForCodepoint (env : Env) (m : FontManager) (face cp : ℕ) : GlyphResult :=
  match cacheFind m.glyphs face cp with
  | some g => { res := some g, mgr := m, extractions := 0, gridBuilds := 0 }
  | none =>
      let m1 := ensureOpen m
      match env.load face cp with
      | none => { res := none, mgr := m1, extractions := 0, gridBuilds := 0 }
      | some lg => insertGlyph env m1 face cp lg

/-- A degenerate one-point bezier used to give the simulated glyphs one
curve each. -/
def simBezier : Bezier2 := ⟨(0, 0), (0, 0), (0, 0)⟩

/-- Environment for the grid-atlas fill scenario: every codepoint loads
a glyph with exactly one curve (so each glyph takes
`bezierPixelLength 1 = 5` glyph-data texels and one 20×20 grid). -/
def simEnv : Env :=
  { load := fun _ _ => some
      { width := 1024, height := 1024, bearingX := 0, bearingY := 0
        advance := 100, curves := [simBezier] }
    vgrid := fun _ _ _ _ => fun _ => (0, 0, 0, 0) }

/-- A loaded glyph with 21845 curves: it needs `2 + 3·21845 = 65537`
glyph-data texels, one more than the `kBezierAtlasSize² = 65536` budget. -/
def overBudgetGlyph : LoadedGlyph :=
  { width := 1024, height := 1024, bearingX := 0, bearingY := 0
    advance := 100, curves := List.replicate 21845 simBezier }

/-- Environment whose every codepoint loads the over-budget glyph. -/
def overBudgetEnv : Env :=
  { load := fun _ _ => some overBudgetGlyph
    vgrid := fun _ _ _ _ => fun _ => (0, 0, 0, 0) }

/-- Manager state after inserting the `n` distinct codepoints
`0, 1, …, n-1` into a fresh manager under `simEnv`. -/
def simState : ℕ → FontManager
  | 0 => initMgr
  | n + 1 => (getGlyphForCodepoint simEnv (simState n) 0 n).mgr

/-- Atlas group index recorded for the `(k+1)`-th simulated glyph
(`bezierAtlasPos[1]` of codepoint `k`'s cache record). -/
def simGroupOf (k : ℕ) : Option ℤ :=
  (cacheFind (simState 165).glyphs 0 k).map (fun g => g.bezierAtlasPos.2)

/-- Grid-atlas position of the `(k+1)`-th simulated glyph, read back
from the two `(gridX, gridY)` header half-words its insertion wrote at
its glyph-data offset. -/
def simGridPosOf (k : ℕ) : Option (ℕ × ℕ) :=
  (cacheFind (simState 165).glyphs 0 k).map (fun g =>
    let grp := (simState 165).atlases.getD g.bezierAtlasPos.2.toNat emptyAtlasGroup
    (grp.glyphDataBuf (g.bezierAtlasPos.1.toNat * 2),
     grp.glyphDataBuf (g.bezierAtlasPos.1.toNat * 2 + 1)))

/-- `GLLabel::GlyphVertex` (declared in `gllabel.hpp`): world position,
the packed 32-bit `data` attribute, and the RGBA color bytes. -/
structure GlyphVertex where
  pos : ℚ × ℚ
  data : ℕ
  color : ℕ × ℕ × ℕ × ℕ

/-- `GlyphVertex emptyVert{}` / `GlyphVertex v[6]{}`: zero
initialization. -/
def emptyGlyphVertex : GlyphVertex := ⟨(0, 0), 0, (0, 0, 0, 0)⟩

/-- The text-management state of one `GLLabel`: the text, the per-glyph
cache pointers and the six vertices per glyph, plus the caret timer the
two text operations reset.  GL buffer handles and caret display state
are external and omitted. -/
structure Label where
  text : List ℕ
  glyphs : List (Option Glyph)
  verts : List GlyphVertex
  caretTime : ℚ

/-- `container.insert(container.begin() + i, ys)`: insertion of a block
at position `i`. -/
def insertList (i : ℕ) (ys xs : List α) : List α :=
  xs.take i ++ ys ++ xs.drop i

/-- `container.erase(begin() + i, begin() + (i + n))`. -/
def eraseRange (i n : ℕ) (xs : List α) : List α :=
  xs.take i ++ xs.drop (i + n)

/-- `unsigned int k = (j < 4) ? j : 6 - j` (gllabel.cpp line 119). -/
def normKOf (j : Fin 6) : ℕ :=
  if (j : ℕ) < 4 then (j : ℕ) else 6 - (j : ℕ)

/-- `normX = k & 1` (gllabel.cpp line 120). -/
def normXOf (j : Fin 6) : ℕ := normKOf j &&& 1

/-- `normY = k > 1` (gllabel.cpp line 121). -/
def normYOf (j : Fin 6) : ℕ := if 1 < normKOf j then 1 else 0

/-- `v[j].data = (glyph->bezierAtlasPos[0] << 2) + ((normX << 1) + normY)`
(gllabel.cpp lines 122-123); `data` is a 32-bit unsigned field. -/
def vertexDataOf (posX : ℤ) (j : Fin 6) : ℕ :=
  ((posX.toNat <<< 2) + ((normXOf j <<< 1) + normYOf j)) % 2 ^ 32

/-- The em-box corner assigned to vertex `j` before the offsets are
added (gllabel.cpp lines 103-108). -/
def cornerBase (g : Glyph) : Fin 6 → ℚ × ℚ
  | 0 => (0, 0)
  | 1 => ((g.size.1 : ℚ), 0)
  | 2 => (0, (g.size.2 : ℚ))
  | 3 => ((g.size.1 : ℚ), (g.size.2 : ℚ))
  | 4 => (0, (g.size.2 : ℚ))
  | 5 => ((g.size.1 : ℚ), 0)

/-- `(uint8_t)(color.ch * 255)` for the four channels (gllabel.cpp line
114): float-to-uint8 truncation of the in-range channel values. -/
def colorBytes (c : ℚ × ℚ × ℚ × ℚ) : ℕ × ℕ × ℕ × ℕ :=
  ((⌊c.1 * 255⌋).toNat, (⌊c.2.1 * 255⌋).toNat,
   (⌊c.2.2.1 * 255⌋).toNat, (⌊c.2.2.2 * 255⌋).toNat)

/-- Vertex `j` of one glyph's quad (gllabel.cpp lines 102-123): corner
plus append offset plus glyph bearing offset, the color bytes, and the
packed data attribute. -/
def mkVert (g : Glyph) (off : ℚ × ℚ) (col : ℕ × ℕ × ℕ × ℕ) (j : Fin 6) : GlyphVertex :=
  { pos := ((cornerBase g j).1 + off.1 + (g.offset.1 : ℚ),
            (cornerBase g j).2 + off.2 + (g.offset.2 : ℚ))
    data := vertexDataOf g.bezierAtlasPos.1 j
    color := col }

/-- The six vertices `v[0]` through `v[5]` of one glyph. -/
def buildGlyphVerts (g : Glyph) (off : ℚ × ℚ) (col : ℕ × ℕ × ℕ × ℕ) : List GlyphVertex :=
  [mkVert g off col 0, mkVert g off col 1, mkVert g off col 2,
   mkVert g off col 3, mkVert g off col 4, mkVert g off col 5]

/-- Consecutive element stores `verts[base + j] = ws[j]`. -/
def setAll (vs : List GlyphVertex) (base : ℕ) : List GlyphVertex → List GlyphVertex
  | [] => vs
  | w :: ws => setAll (vs.set base w) (base + 1) ws

/-- `verts[k].pos = p` (the other fields keep their values). -/
def setPosAt (vs : List GlyphVertex) (k : ℕ) (p : ℚ × ℚ) : List GlyphVertex :=
  vs.set k { vs.getD k emptyGlyphVertex with pos := p }

/-- `verts[k].pos` updated through `f`. -/
def modifyPosAt (vs : List GlyphVertex) (k : ℕ) (f : ℚ × ℚ → ℚ × ℚ) : List GlyphVertex :=
  vs.set k { vs.getD k emptyGlyphVertex with pos := f (vs.getD k emptyGlyphVertex).pos }

/-- `verts[i*6 + j].pos += d` for the six vertices of glyph `i`. -/
def addDeltaSix (vs : List GlyphVertex) (i : ℕ) (d : ℚ × ℚ) : List GlyphVertex :=
  (List.range 6).foldl
    (fun acc j => modifyPosAt acc (i * 6 + j) (fun p => (p.1 + d.1, p.2 + d.2))) vs

/-- `verts[i*6 + j].pos -= d` for the six vertices of glyph `i`. -/
def subDeltaSix (vs : List GlyphVertex) (i : ℕ) (d : ℚ × ℚ) : List GlyphVertex :=
  (List.range 6).foldl
    (fun acc j => modifyPosAt acc (i * 6 + j) (fun p => (p.1 - d.1, p.2 - d.2))) vs

/-- `pos + (-glyph->offset) + (glyph->advance, 0)` when the glyph
pointer is non-null, `pos` otherwise: the pen position after a glyph,
as computed at gllabel.cpp lines 71-76, 176-181 and 185-191. -/
def glyphEndOffset (pos : ℚ × ℚ) (og : Option Glyph) : ℚ × ℚ :=
  match og with
  | some g => (pos.1 - (g.offset.1 : ℚ) + (g.advance : ℚ), pos.2 - (g.offset.2 : ℚ))
  | none => pos

/-- The glyph-placement loop of `InsertText` (gllabel.cpp lines 79-129):
carriage return, newline and tab update only the pen and the slot's
first vertex position; other codepoints go through
`GetGlyphForCodepoint` (threading the manager state) and, on success,
write the six quad vertices, record the glyph pointer, and advance the
pen by the glyph's advance. -/
def insertLoop (env : Env) (face : ℕ) (faceHeight : ℤ) (col : ℕ × ℕ × ℕ × ℕ)
    (index : ℕ) :
    List ℕ → ℕ → (ℚ × ℚ) → FontManager → List (Option Glyph) → List GlyphVertex →
      (ℚ × ℚ) × FontManager × List (Option Glyph) × List GlyphVertex
  | [], _, off, mgr, gs, vs => (off, mgr, gs, vs)
  | c :: rest, i, off, mgr, gs, vs =>
    if c = 13 then
      insertLoop env face faceHeight col index rest (i + 1) off mgr gs
        (setPosAt vs ((index + i) * 6) off)
    else if c = 10 then
      let off' := ((0 : ℚ), off.2 - (faceHeight : ℚ))
      insertLoop env face faceHeight col index rest (i + 1) off' mgr gs
        (setPosAt vs ((index + i) * 6) off')
    else if c = 9 then
      let off' := (off.1 + 2000, off.2)
      insertLoop env face faceHeight col index rest (i + 1) off' mgr gs
        (setPosAt vs ((index + i) * 6) off')
    else
      let r := getGlyphForCodepoint env mgr face c
      match r.res with
      | none =>
          insertLoop env face faceHeight col index rest (i + 1) off r.mgr gs
            (setPosAt vs ((index + i) * 6) off)
      | some g =>
          insertLoop env face faceHeight col index rest (i + 1)
            (off.1 + (g.advance : ℚ), off.2) r.mgr
            (gs.set (index + i) (some g))
            (setAll vs ((index + i) * 6) (buildGlyphVerts g off col))

/-- The trailing-glyph shift loop of `InsertText` (gllabel.cpp lines
131-148): starting at the first glyph after the inserted range, shift
each glyph's six vertices by `delta`; at a newline, stop if `delta.y`
is zero, else clear a negative `delta.x` for the rest of the loop.
`fuel` bounds the iteration (the call passes the text length, an upper
bound on the remaining iterations). -/
def shiftAfter : ℕ → List ℕ → (ℚ × ℚ) → List GlyphVertex → ℕ → List GlyphVertex
  | 0, _, _, vs, _ => vs
  | fuel + 1, text, delta, vs, i =>
    if i < text.length then
      if text.getD i 0 = 10 ∧ delta.2 = 0 then vs
      else
        let d := if text.getD i 0 = 10 ∧ delta.1 < 0 then ((0 : ℚ), delta.2) else delta
        shiftAfter fuel text d (addDeltaSix vs i d) (i + 1)
    else vs

/-- The shift loop of `RemoveText` (gllabel.cpp lines 199-208): from
`index` to the end of the (already shortened) text, clear `delta.x` at
each newline, and subtract `delta` from each glyph's six vertices. -/
def removeShift : ℕ → List ℕ → (ℚ × ℚ) → List GlyphVertex → ℕ → List GlyphVertex
  | 0, _, _, vs, _ => vs
  | fuel + 1, text, delta, vs, i =>
    if i < text.length then
      let d := if text.getD i 0 = 10 then ((0 : ℚ), delta.2) else delta
      removeShift fuel text d (subDeltaSix vs i d) (i + 1)
    else vs

/-- `GLLabel::InsertText` (gllabel.cpp lines 58-165): clamp the index
to the text length, insert the text, null glyph pointers and zeroed
vertices in lockstep, compute the starting pen position from the
preceding glyph, run the placement loop, then shift everything after.
The GL buffer upload (lines 150-163) is external and omitted; the
caret timer is reset. -/
def insertText (env : Env) (face : ℕ) (faceHeight : ℤ) (lbl : Label)
    (newText : List ℕ) (index : ℕ) (color : ℚ × ℚ × ℚ × ℚ)
    (mgr : FontManager) : Label × FontManager :=
  let idx := min index lbl.text.length
  let text' := insertList idx newText lbl.text
  let glyphs' := insertList idx (List.replicate newText.length none) lbl.glyphs
  let verts' := insertList (idx * 6)
    (List.replicate (newText.length * 6) emptyGlyphVertex) lbl.verts
  let appendOffset0 :=
    if 0 < idx then
      glyphEndOffset (verts'.getD ((idx - 1) * 6) emptyGlyphVertex).pos
        (glyphs'.getD (idx - 1) none)
    else ((0 : ℚ), (0 : ℚ))
  let r := insertLoop env face faceHeight (colorBytes color) idx newText 0
    appendOffset0 mgr glyphs' verts'
  let delta := (r.1.1 - appendOffset0.1, r.1.2 - appendOffset0.2)
  let verts2 := shiftAfter text'.length text' delta r.2.2.2 (idx + newText.length)
  ({ text := text', glyphs := r.2.2.1, verts := verts2, caretTime := 0 }, r.2.1)

/-- `GLLabel::RemoveText` (gllabel.cpp lines 167-219): return unchanged
when `index` is past the text; clamp the length; read the pen positions
before and after the removed range; erase text, glyph pointers and
vertices in lockstep; shift the remainder back.  (For the out-of-model
call `index = 0, length = 0` the C++ reads `glyphs[-1]`, which is
undefined behavior; the embedding's total `getD` returns the default.) -/
def removeText (lbl : Label) (index removeLen : ℕ) : Label :=
  if lbl.text.length ≤ index then lbl
  else
    let len := if lbl.text.length < index + removeLen
      then lbl.text.length - index else removeLen
    let startOffset :=
      if 0 < index then
        glyphEndOffset (lbl.verts.getD ((index - 1) * 6) emptyGlyphVertex).pos
          (lbl.glyphs.getD (index - 1) none)
      else ((0 : ℚ), (0 : ℚ))
    let endOffset := glyphEndOffset
      (lbl.verts.getD (index * 6) emptyGlyphVertex).pos
      (lbl.glyphs.getD (index + len - 1) none)
    let text' := eraseRange index len lbl.text
    let glyphs' := eraseRange index len lbl.glyphs
    let verts' := eraseRange (index * 6) (len * 6) lbl.verts
    let delta := (endOffset.1 - startOffset.1, endOffset.2 - startOffset.2)
    { text := text', glyphs := glyphs'
      verts := removeShift text'.length text' delta verts' index
      caretTime := 0 }

theorem length_bezierHalfwords (b : Bezier2) (s : ℚ × ℚ) :
    (bezierHalfwords b s).length = 6 := rfl

theorem length_flatMap_bezier (bz : List Bezier2) (s : ℚ × ℚ) :
    (bz.flatMap (fun b => bezierHalfwords b s)).length = 6 * bz.length := by
  induction bz with
  | nil => rfl
  | cons b rest ih =>
      simp [List.flatMap_cons, length_bezierHalfwords, ih]
      ring

theorem writeHalfwords_read (buf : ℕ → ℕ) (base : ℕ) (ws : List ℕ) (i : ℕ)
    (h : i < ws.length) : writeHalfwords buf base ws (base + i) = ws.getD i 0 := by
  simp only [writeHalfwords]
  rw [if_pos ⟨Nat.le_add_right _ _, by omega⟩]
  congr 1
  omega

theorem flatMap_bezier_getD (s : ℚ × ℚ) (bz : List Bezier2) (i k : ℕ)
    (hi : i < bz.length) (hk : k < 6) :
    (bz.flatMap (fun b => bezierHalfwords b s)).getD (6 * i + k) 0 =
      (bezierHalfwords (bz.getD i bezDefault) s).getD k 0 := by
  induction bz generalizing i with
  | nil => simp at hi
  | cons b rest ih =>
      cases i with
      | zero =>
          simp only [List.flatMap_cons, Nat.mul_zero, Nat.zero_add]
          rw [List.getD_append _ _ _ _ (by rw [length_bezierHalfwords]; omega)]
          rfl
      | succ j =>
          simp only [List.flatMap_cons]
          rw [List.getD_append_right _ _ _ _ (by rw [length_bezierHalfwords]; omega)]
          rw [length_bezierHalfwords]
          have : 6 * (j + 1) + k - 6 = 6 * j + k := by ring_nf; omega
          rw [this, ih j (by simpa using hi)]
          rfl

theorem length_glyphDataHalfwords (bz : List Bezier2) (s : ℚ × ℚ)
    (gx gy gw gh : ℕ) :
    (glyphDataHalfwords bz s gx gy gw gh).length = 4 + 6 * bz.length := by
  unfold glyphDataHalfwords
  rw [List.length_append, length_flatMap_bezier]
  rfl

theorem encodeCoord_512_1024 : encodeCoord 512 1024 = 32767 := by
  show (⌊(512 : ℚ) * 65535 / 1024⌋).toNat = 32767
  norm_num
  rfl

theorem encodeCoord_2048_2048 : encodeCoord 2048 2048 = 65535 := by
  show (⌊(2048 : ℚ) * 65535 / 2048⌋).toNat = 65535
  norm_num
  rfl

theorem glyphDataHalfwords_getD_bezier (bz : List Bezier2) (s : ℚ × ℚ)
    (gx gy gw gh i k : ℕ) (hi : i < bz.length) (hk : k < 6) :
    (glyphDataHalfwords bz s gx gy gw gh).getD (4 + (6 * i + k)) 0 =
      (bezierHalfwords (bz.getD i bezDefault) s).getD k 0 := by
  unfold glyphDataHalfwords
  rw [List.getD_append_right _ _ _ _ (by simp)]
  simp only [List.length_cons, List.length_nil]
  have : 4 + (6 * i + k) - 4 = 6 * i + k := by omega
  rw [this, flatMap_bezier_getD s bz i k hi hk]

/-- C1 (counterexample).  The claim says each encoded half-word equals
`round(coord * 65535 / glyphSize.axis)` and that the point `(w/2, h)` of
a glyph with `glyphSize = (1024, 2048)` encodes to `(32768, 65535)`.
The code truncates the float instead of rounding: on that exact point,
`512 * 65535 / 1024 = 32767.5`, whose rounding is `32768` but whose
encoding by `write_bezier_to_buffer` is `32767`. -/
theorem claim1_round_refuted :
    encodePoint (512, 2048) (1024, 2048) = (32767, 65535) ∧
      round (512 * 65535 / 1024 : ℚ) = 32768 ∧
      encodePoint (512, 2048) (1024, 2048) ≠ (32768, 65535) := by
  refine ⟨?_, ?_, ?_⟩
  · simp [encodePoint, encodeCoord_512_1024, encodeCoord_2048_2048]
  · rw [round_eq]
    norm_num
  · intro h
    have h1 : encodeCoord 512 1024 = 32768 := congrArg Prod.fst h
    have h2 := encodeCoord_512_1024
    omega

/-- C1 (amended).  For every glyph insertion, each 2D control point
`(e0, c, e1)` of every curve is encoded into the glyph-data buffer as
two 16-bit unsigned half-words, each equal to the float-to-integer
truncation `⌊coord * 65535 / glyphSize.axis⌋` (not the rounding); in
particular the point `(w/2, h)` of a glyph with
`glyphSize = (1024, 2048)` yields the half-words `(32767, 65535)`.
Stated on the buffer left by the write of glyph data at any half-word
base: bezier `i`'s six half-words sit at offsets `4 + 6i … 4 + 6i + 5`
and carry its three points' truncated encodings. -/
theorem claim1_truncating_encoding (buf : ℕ → ℕ) (base : ℕ)
    (bz : List Bezier2) (s : ℚ × ℚ) (gx gy gw gh i : ℕ)
    (hi : i < bz.length) :
    (let buf' := writeHalfwords buf base (glyphDataHalfwords bz s gx gy gw gh)
     let b := bz.getD i bezDefault
     buf' (base + (4 + 6 * i)) = (⌊b.e0.1 * 65535 / s.1⌋).toNat ∧
       buf' (base + (4 + 6 * i + 1)) = (⌊b.e0.2 * 65535 / s.2⌋).toNat ∧
       buf' (base + (4 + 6 * i + 2)) = (⌊b.c.1 * 65535 / s.1⌋).toNat ∧
       buf' (base + (4 + 6 * i + 3)) = (⌊b.c.2 * 65535 / s.2⌋).toNat ∧
       buf' (base + (4 + 6 * i + 4)) = (⌊b.e1.1 * 65535 / s.1⌋).toNat ∧
       buf' (base + (4 + 6 * i + 5)) = (⌊b.e1.2 * 65535 / s.2⌋).toNat) ∧
      encodePoint (512, 2048) (1024, 2048) = (32767, 65535) := by
  constructor
  · have hlen := length_glyphDataHalfwords bz s gx gy gw gh
    have read : ∀ k : ℕ, k < 6 →
        writeHalfwords buf base (glyphDataHalfwords bz s gx gy gw gh)
            (base + (4 + (6 * i + k))) =
          (bezierHalfwords (bz.getD i bezDefault) s).getD k 0 := by
      intro k hk
      rw [writeHalfwords_read _ _ _ _ (by rw [hlen]; omega)]
      exact glyphDataHalfwords_getD_bezier bz s gx gy gw gh i k hi hk
    refine ⟨?_, ?_, ?_, ?_, ?_, ?_⟩
    · simpa using read 0 (by omega)
    · have := read 1 (by omega)
      rw [show 4 + (6 * i + 1) = 4 + 6 * i + 1 by omega] at this
      simpa [bezierHalfwords, encodeCoord] using this
    · have := read 2 (by omega)
      rw [show 4 + (6 * i + 2) = 4 + 6 * i + 2 by omega] at this
      simpa [bezierHalfwords, encodeCoord] using this
    · have := read 3 (by omega)
      rw [show 4 + (6 * i + 3) = 4 + 6 * i + 3 by omega] at this
      simpa [bezierHalfwords, encodeCoord] using this
    · have := read 4 (by omega)
      rw [show 4 + (6 * i + 4) = 4 + 6 * i + 4 by omega] at this
      simpa [bezierHalfwords, encodeCoord] using this
    · have := read 5 (by omega)
      rw [show 4 + (6 * i + 5) = 4 + 6 * i + 5 by omega] at this
      simpa [bezierHalfwords, encodeCoord] using this
  · simp [encodePoint, encodeCoord_512_1024, encodeCoord_2048_2048]

/-- C1 (witness): the amended encoding theorem applied to a concrete
one-curve glyph written at half-word base 10. -/
theorem claim1_truncating_encoding_witness :
    (let buf' := writeHalfwords (fun _ => 0) 10
       (glyphDataHalfwords [⟨(512, 2048), (0, 0), (1024, 0)⟩] (1024, 2048) 0 0 20 20)
     let b := List.getD [(⟨(512, 2048), (0, 0), (1024, 0)⟩ : Bezier2)] 0 bezDefault
     buf' (10 + (4 + 6 * 0)) = (⌊b.e0.1 * 65535 / (1024 : ℚ)⌋).toNat ∧
       buf' (10 + (4 + 6 * 0 + 1)) = (⌊b.e0.2 * 65535 / (2048 : ℚ)⌋).toNat ∧
       buf' (10 + (4 + 6 * 0 + 2)) = (⌊b.c.1 * 65535 / (1024 : ℚ)⌋).toNat ∧
       buf' (10 + (4 + 6 * 0 + 3)) = (⌊b.c.2 * 65535 / (2048 : ℚ)⌋).toNat ∧
       buf' (10 + (4 + 6 * 0 + 4)) = (⌊b.e1.1 * 65535 / (1024 : ℚ)⌋).toNat ∧
       buf' (10 + (4 + 6 * 0 + 5)) = (⌊b.e1.2 * 65535 / (2048 : ℚ)⌋).toNat) ∧
      encodePoint (512, 2048) (1024, 2048) = (32767, 65535) :=
  claim1_truncating_encoding (fun _ => 0) 10
    [⟨(512, 2048), (0, 0), (1024, 0)⟩] (1024, 2048) 0 0 20 20 0
    (by simp)

/-- C2.  The claim says over-budget glyphs (`2 + 3·|curves| > 65536`
texels) are detected, logged and stored as degenerate records.  The
code is wrong: `bezierPixelLength` is a `uint16_t`, so the computed
length is always `< 65536` and the `tooManyCurves` test
`uint32_t(bezierPixelLength) > 65536` never fires; a glyph with 21845
curves needs `2 + 3·21845 = 65537 > 65536` texels, yet
`GetGlyphForCodepoint` takes the normal insertion path and returns a
non-degenerate record (group index `0`, not the degenerate `-1`). -/
theorem claim2_budget_check_dead_code :
    (∀ n : ℕ, ¬ kBezierAtlasSize * kBezierAtlasSize < bezierPixelLength n) ∧
      kBezierAtlasSize * kBezierAtlasSize < 2 + 21845 * 3 ∧
      ((getGlyphForCodepoint overBudgetEnv initMgr 0 0).res.map
        (fun g => g.bezierAtlasPos.2)) = some 0 := by
  refine ⟨?_, by norm_num [kBezierAtlasSize], ?_⟩
  · intro n
    have : bezierPixelLength n < 2 ^ 16 := Nat.mod_lt _ (by norm_num)
    simp only [kBezierAtlasSize]
    omega
  · have hlen : overBudgetGlyph.curves.length = 21845 := by
      rw [show overBudgetGlyph.curves = List.replicate 21845 simBezier from rfl,
        List.length_replicate]
    have hb : bezierPixelLength 21845 = 1 := by decide
    have hcf : cacheFind initMgr.glyphs 0 0 = none := rfl
    have hload : overBudgetEnv.load 0 0 = some overBudgetGlyph := rfl
    simp only [getGlyphForCodepoint, hcf, hload]
    simp only [insertGlyph, hlen, hb]
    rw [if_neg (by norm_num [kBezierAtlasSize])]
    simp only [successInsert, hlen, hb]
    rw [if_neg (by decide)]
    decide

/-- C3 (counterexample).  The claim says that, inserting only 20×20
glyphs, the 165th glyph is the first one placed in a new atlas group,
at `nextGridPos = (0, 0)`.  In the simulated fill, the 157th glyph
(codepoint 156) is already in group 1, and the 165th glyph (codepoint
164) is placed in that same group at grid position `(160, 0)`. -/
theorem claim3_165th_refuted :
    simGroupOf 156 = some 1 ∧ simGroupOf 164 = some 1 ∧
      simGridPosOf 164 = some (160, 0) := by
  set_option maxRecDepth 100000 in decide

/-- C3 (amended).  After every successful glyph insertion the grid
cursor advances by `kGridMaxSize = 20` pixels in x; when
`x + kGridMaxSize > kGridAtlasSize = 256` the cursor wraps to `x = 0`
and `y` increases by `kGridMaxSize`; when `y` also overflows
(`y ≥ kGridAtlasSize`) the group is marked full and a fresh group is
opened; consequently, inserting only 20×20 glyphs, the 157th glyph is
the first one placed in a new atlas group, at `nextGridPos = (0, 0)`:
12 columns × 13 rows = 156 glyphs fill a group. -/
theorem claim3_grid_cursor_amended :
    (∀ g : AtlasGroup, g.nextGridPosX + kGridMaxSize ≤ kGridAtlasSize →
        advanceGridCursor g = (g, false)) ∧
      (∀ g : AtlasGroup, kGridAtlasSize < g.nextGridPosX + kGridMaxSize →
        g.nextGridPosY + kGridMaxSize < kGridAtlasSize →
        advanceGridCursor g =
          ({ g with
              nextGridPosX := 0
              nextGridPosY := g.nextGridPosY + kGridMaxSize }, false)) ∧
      (∀ g : AtlasGroup, kGridAtlasSize < g.nextGridPosX + kGridMaxSize →
        kGridAtlasSize ≤ g.nextGridPosY + kGridMaxSize →
        advanceGridCursor g =
          ({ g with
              nextGridPosX := 0
              nextGridPosY := g.nextGridPosY + kGridMaxSize
              full := true
              uploaded := false }, true)) ∧
      (simGroupOf 155 = some 0 ∧ simGroupOf 156 = some 1 ∧
        simGridPosOf 156 = some (0, 0)) := by
  refine ⟨?_, ?_, ?_, ?_⟩
  · intro g h
    rw [advanceGridCursor, if_neg (by omega)]
  · intro g h1 h2
    rw [advanceGridCursor, if_pos (by omega)]
    simp only
    rw [if_neg (by simp; omega)]
  · intro g h1 h2
    rw [advanceGridCursor, if_pos (by omega)]
    simp only
    rw [if_pos (by simp; omega)]
  · set_option maxRecDepth 100000 in decide

/-- C3 (witness): the three cursor rules applied to concrete groups
(cursor at `(0,0)`, at `(240,0)`, and at `(240,240)`). -/
theorem claim3_grid_cursor_amended_witness :
    advanceGridCursor emptyAtlasGroup = (emptyAtlasGroup, false) ∧
      advanceGridCursor { emptyAtlasGroup with nextGridPosX := 240 } =
        ({ emptyAtlasGroup with nextGridPosX := 0, nextGridPosY := 20 }, false) ∧
      advanceGridCursor { emptyAtlasGroup with nextGridPosX := 240, nextGridPosY := 240 } =
        ({ emptyAtlasGroup with
            nextGridPosX := 0
            nextGridPosY := 260
            full := true
            uploaded := false }, true) :=
  ⟨claim3_grid_cursor_amended.1 emptyAtlasGroup (by norm_num [emptyAtlasGroup, kGridMaxSize, kGridAtlasSize]),
   claim3_grid_cursor_amended.2.1 _ (by norm_num [emptyAtlasGroup, kGridMaxSize, kGridAtlasSize])
     (by norm_num [emptyAtlasGroup, kGridMaxSize, kGridAtlasSize]),
   claim3_grid_cursor_amended.2.2.1 _ (by norm_num [emptyAtlasGroup, kGridMaxSize, kGridAtlasSize])
     (by norm_num [emptyAtlasGroup, kGridMaxSize, kGridAtlasSize])⟩

theorem ensureOpen_glyphs (m : FontManager) : (ensureOpen m).glyphs = m.glyphs := by
  rw [ensureOpen]
  split <;> rfl

theorem setLast_glyphs (m : FontManager) (g : AtlasGroup) :
    (setLast m g).glyphs = m.glyphs := rfl

theorem markLastFull_glyphs (m : FontManager) :
    (markLastFull m).glyphs = m.glyphs := rfl

theorem gridAdvanceCheck_glyphs (m : FontManager) :
    (gridAdvanceCheck m).glyphs = m.glyphs := by
  rw [gridAdvanceCheck]
  split
  · rw [ensureOpen_glyphs]
    rfl
  · rfl

theorem cacheInsert_atlases (m : FontManager) (f c : ℕ) (g : Glyph) :
    (cacheInsert m f c g).atlases = m.atlases := rfl

theorem cacheFind_insert (m : FontManager) (f c : ℕ) (g : Glyph) :
    cacheFind (cacheInsert m f c g).glyphs f c = some g := by
  simp [cacheInsert, cacheFind]

theorem ensureOpen_idem (m : FontManager) : ensureOpen (ensureOpen m) = ensureOpen m := by
  have hlast : ¬((ensureOpen m).atlases.length = 0 ∨ (lastGroup (ensureOpen m)).full) := by
    by_cases h : m.atlases.length = 0 ∨ (lastGroup m).full
    · rw [ensureOpen, if_pos h]
      refine not_or.mpr ⟨by simp, ?_⟩
      simp only [lastGroup, List.length_append, List.length_cons, List.length_nil]
      rw [List.getD_append_right _ _ _ _ (by omega)]
      have : m.atlases.length + (0 + 1) - 1 - m.atlases.length = 0 := by omega
      rw [this]
      simp [emptyAtlasGroup]
    · rw [ensureOpen, if_neg h]
      exact h
  conv_lhs => rw [ensureOpen]
  rw [if_neg hlast]

theorem ensureOpen_getD_old (m : FontManager) (i : ℕ) (d : AtlasGroup)
    (h : i < m.atlases.length) :
    (ensureOpen m).atlases.getD i d = m.atlases.getD i d := by
  rw [ensureOpen]
  split
  · exact List.getD_append _ _ _ _ h
  · rfl

/-- C4.  Every call to `GetGlyphForCodepoint` that fails to insert a
glyph — a `nullptr` return from a failed outline load, or a degenerate
store (zero curves / detected over-budget, flagged by
`bezierAtlasPos[1] = -1`) — leaves both atlas cursors
(`glyphDataBufOffset` and `nextGridPos`) of every pre-existing atlas
group exactly as they were before the call: all failure paths return
before the writes and the cursor advancement of a successful insertion. -/
theorem claim4_failed_insert_preserves_cursors (env : Env) (m : FontManager)
    (face cp : ℕ)
    (h : (getGlyphForCodepoint env m face cp).res = none ∨
      ∃ g, (getGlyphForCodepoint env m face cp).res = some g ∧
        g.bezierAtlasPos.2 = -1) :
    ∀ i, i < m.atlases.length →
      ((getGlyphForCodepoint env m face cp).mgr.atlases.getD i emptyAtlasGroup).glyphDataBufOffset =
          (m.atlases.getD i emptyAtlasGroup).glyphDataBufOffset ∧
        ((getGlyphForCodepoint env m face cp).mgr.atlases.getD i emptyAtlasGroup).nextGridPosX =
          (m.atlases.getD i emptyAtlasGroup).nextGridPosX ∧
        ((getGlyphForCodepoint env m face cp).mgr.atlases.getD i emptyAtlasGroup).nextGridPosY =
          (m.atlases.getD i emptyAtlasGroup).nextGridPosY := by
  intro i hi
  rcases hfind : cacheFind m.glyphs face cp with _ | g0
  · rcases hload : env.load face cp with _ | lg
    · simp only [getGlyphForCodepoint, hfind, hload]
      rw [ensureOpen_getD_old m i _ hi]
      exact ⟨rfl, rfl, rfl⟩
    · by_cases hdeg : lg.curves.length = 0 ∨
          kBezierAtlasSize * kBezierAtlasSize < bezierPixelLength lg.curves.length
      · simp only [getGlyphForCodepoint, hfind, hload, insertGlyph]
        rw [if_pos hdeg]
        simp only [cacheInsert_atlases]
        rw [ensureOpen_getD_old m i _ hi]
        exact ⟨rfl, rfl, rfl⟩
      · exfalso
        have hres : (getGlyphForCodepoint env m face cp).res =
            (successInsert env (ensureOpen m) face cp lg).res := by
          simp only [getGlyphForCodepoint, hfind, hload, insertGlyph]
          rw [if_neg hdeg]
        rcases h with h | ⟨g, hg, hflag⟩
        · rw [hres] at h
          simp [successInsert] at h
        · rw [hres] at hg
          simp only [successInsert, Option.some.injEq] at hg
          rw [← hg] at hflag
          simp only at hflag
          omega
  · have h1 : getGlyphForCodepoint env m face cp =
        { res := some g0, mgr := m, extractions := 0, gridBuilds := 0 } := by
      simp only [getGlyphForCodepoint, hfind]
    rw [h1]
    exact ⟨rfl, rfl, rfl⟩

/-- C4 (witness): a zero-curve load against a manager owning one group
with cursors `(7, (40, 60))` leaves that group's cursors untouched. -/
theorem claim4_failed_insert_preserves_cursors_witness :
    (let env : Env :=
      { load := fun _ _ => some
          { width := 100, height := 200, bearingX := 3, bearingY := 5
            advance := 7, curves := [] }
        vgrid := fun _ _ _ _ => fun _ => (0, 0, 0, 0) }
     let m : FontManager :=
      { atlases := [{ emptyAtlasGroup with
          glyphDataBufOffset := 7
          nextGridPosX := 40
          nextGridPosY := 60 }]
        glyphs := [] }
     ((getGlyphForCodepoint env m 0 0).mgr.atlases.getD 0 emptyAtlasGroup).glyphDataBufOffset =
        (m.atlases.getD 0 emptyAtlasGroup).glyphDataBufOffset ∧
      ((getGlyphForCodepoint env m 0 0).mgr.atlases.getD 0 emptyAtlasGroup).nextGridPosX =
        (m.atlases.getD 0 emptyAtlasGroup).nextGridPosX ∧
      ((getGlyphForCodepoint env m 0 0).mgr.atlases.getD 0 emptyAtlasGroup).nextGridPosY =
        (m.atlases.getD 0 emptyAtlasGroup).nextGridPosY) :=
  claim4_failed_insert_preserves_cursors _ _ 0 0
    (Or.inr ⟨degenerateGlyph
        { width := 100, height := 200, bearingX := 3, bearingY := 5
          advance := 7, curves := [] },
      by decide, by decide⟩)
    0 (by decide)

/-- C7.  A glyph whose extracted outline has zero curves gets a
degenerate cache record stored and returned: its no-curves flag is set
(`bezierAtlasPos[1] = -1`) while size, bearing offset and advance are
populated from the font metrics. -/
theorem claim7_zero_curves_degenerate (env : Env) (m : FontManager)
    (face cp : ℕ) (lg : LoadedGlyph)
    (hmiss : cacheFind m.glyphs face cp = none)
    (hload : env.load face cp = some lg)
    (hcurves : lg.curves = []) :
    (getGlyphForCodepoint env m face cp).res = some (degenerateGlyph lg) ∧
      cacheFind (getGlyphForCodepoint env m face cp).mgr.glyphs face cp =
        some (degenerateGlyph lg) ∧
      (degenerateGlyph lg).bezierAtlasPos.2 = -1 ∧
      (degenerateGlyph lg).size = (lg.width, lg.height) ∧
      (degenerateGlyph lg).offset = (lg.bearingX, lg.bearingY - lg.height) ∧
      (degenerateGlyph lg).advance = lg.advance := by
  have hbody : getGlyphForCodepoint env m face cp =
      { res := some (degenerateGlyph lg)
        mgr := cacheInsert (ensureOpen m) face cp (degenerateGlyph lg)
        extractions := 1
        gridBuilds := 1 } := by
    simp only [getGlyphForCodepoint, hmiss, hload, insertGlyph]
    rw [if_pos (Or.inl (by rw [hcurves]; rfl))]
  rw [hbody]
  exact ⟨rfl, cacheFind_insert _ _ _ _, rfl, rfl, rfl, rfl⟩

/-- C7 (witness): the zero-curve path at a concrete whitespace-like
glyph with metrics `(w, h, bx, by, adv) = (100, 200, 3, 5, 7)`. -/
theorem claim7_zero_curves_degenerate_witness :
    (let lg : LoadedGlyph :=
      { width := 100, height := 200, bearingX := 3, bearingY := 5
        advance := 7, curves := [] }
     let env : Env :=
      { load := fun _ _ => some lg
        vgrid := fun _ _ _ _ => fun _ => (0, 0, 0, 0) }
     (getGlyphForCodepoint env initMgr 2 32).res = some (degenerateGlyph lg) ∧
       cacheFind (getGlyphForCodepoint env initMgr 2 32).mgr.glyphs 2 32 =
         some (degenerateGlyph lg) ∧
       (degenerateGlyph lg).bezierAtlasPos.2 = -1 ∧
       (degenerateGlyph lg).size = (lg.width, lg.height) ∧
       (degenerateGlyph lg).offset = (lg.bearingX, lg.bearingY - lg.height) ∧
       (degenerateGlyph lg).advance = lg.advance) :=
  claim7_zero_curves_degenerate _ initMgr 2 32 _ rfl rfl rfl

theorem successInsert_shape (env : Env) (m : FontManager) (face cp : ℕ)
    (lg : LoadedGlyph) :
    ∃ rec m5, successInsert env m face cp lg =
      { res := some rec, mgr := cacheInsert m5 face cp rec
        extractions := 1, gridBuilds := 1 } :=
  ⟨_, _, rfl⟩

/-- C8.  For a fixed face and codepoint, calling `GetGlyphForCodepoint`
twice returns equal glyph records — the second call is a pure cache hit
leaving the manager state unchanged — and the two calls together
perform at most one outline extraction and at most one grid build. -/
theorem claim8_idempotent_lookup (env : Env) (m : FontManager) (face cp : ℕ) :
    (getGlyphForCodepoint env (getGlyphForCodepoint env m face cp).mgr face cp).res =
        (getGlyphForCodepoint env m face cp).res ∧
      (getGlyphForCodepoint env (getGlyphForCodepoint env m face cp).mgr face cp).mgr =
        (getGlyphForCodepoint env m face cp).mgr ∧
      (getGlyphForCodepoint env m face cp).extractions +
          (getGlyphForCodepoint env (getGlyphForCodepoint env m face cp).mgr face cp).extractions ≤ 1 ∧
      (getGlyphForCodepoint env m face cp).gridBuilds +
          (getGlyphForCodepoint env (getGlyphForCodepoint env m face cp).mgr face cp).gridBuilds ≤ 1 := by
  rcases hfind : cacheFind m.glyphs face cp with _ | g0
  · rcases hload : env.load face cp with _ | lg
    · have h1 : getGlyphForCodepoint env m face cp =
          { res := none, mgr := ensureOpen m, extractions := 0, gridBuilds := 0 } := by
        simp only [getGlyphForCodepoint, hfind, hload]
      have hfind2 : cacheFind (ensureOpen m).glyphs face cp = none := by
        rw [ensureOpen_glyphs, hfind]
      have h2 : getGlyphForCodepoint env (ensureOpen m) face cp =
          { res := none, mgr := ensureOpen (ensureOpen m), extractions := 0, gridBuilds := 0 } := by
        simp only [getGlyphForCodepoint, hfind2, hload]
      rw [h1]
      simp [h2, ensureOpen_idem]
    · by_cases hdeg : lg.curves.length = 0 ∨
          kBezierAtlasSize * kBezierAtlasSize < bezierPixelLength lg.curves.length
      · have h1 : getGlyphForCodepoint env m face cp =
            { res := some (degenerateGlyph lg)
              mgr := cacheInsert (ensureOpen m) face cp (degenerateGlyph lg)
              extractions := 1, gridBuilds := 1 } := by
          simp only [getGlyphForCodepoint, hfind, hload, insertGlyph]
          rw [if_pos hdeg]
        have hfind2 := cacheFind_insert (ensureOpen m) face cp (degenerateGlyph lg)
        have h2 : getGlyphForCodepoint env
            (cacheInsert (ensureOpen m) face cp (degenerateGlyph lg)) face cp =
            { res := some (degenerateGlyph lg)
              mgr := cacheInsert (ensureOpen m) face cp (degenerateGlyph lg)
              extractions := 0, gridBuilds := 0 } := by
          simp only [getGlyphForCodepoint, hfind2]
        rw [h1]
        simp [h2]
      · have h1 : getGlyphForCodepoint env m face cp =
            successInsert env (ensureOpen m) face cp lg := by
          simp only [getGlyphForCodepoint, hfind, hload, insertGlyph]
          rw [if_neg hdeg]
        obtain ⟨rec, m5, hshape⟩ := successInsert_shape env (ensureOpen m) face cp lg
        have hfind2 := cacheFind_insert m5 face cp rec
        have h2 : getGlyphForCodepoint env (cacheInsert m5 face cp rec) face cp =
            { res := some rec, mgr := cacheInsert m5 face cp rec
              extractions := 0, gridBuilds := 0 } := by
          simp only [getGlyphForCodepoint, hfind2]
        rw [h1, hshape]
        simp [h2]
  · have h1 : getGlyphForCodepoint env m face cp =
        { res := some g0, mgr := m, extractions := 0, gridBuilds := 0 } := by
      simp only [getGlyphForCodepoint, hfind]
    rw [h1]
    simp [getGlyphForCodepoint, hfind]

/-- C5.  `write_glyph_data_to_buffer` writes two header texels —
`(gridX, gridY)` then `(gridWidth, gridHeight)` — each field a 16-bit
little-endian value on two consecutive bytes of its RGBA texel (x in
R/G, y in B/A), followed by the curve triplets; recomposing each field
from its two bytes recovers `(gridX, gridY, W, H)` exactly. -/
theorem claim5_header_layout (bz : List Bezier2) (s : ℚ × ℚ)
    (gx gy gw gh : ℕ) (hx : gx < 2 ^ 16) (hy : gy < 2 ^ 16)
    (hw : gw < 2 ^ 16) (hh : gh < 2 ^ 16) :
    glyphDataBytes bz s gx gy gw gh =
      [gx % 256, gx / 256, gy % 256, gy / 256,
       gw % 256, gw / 256, gh % 256, gh / 256] ++
        bytesOfHalfwords (bz.flatMap (fun b => bezierHalfwords b s)) ∧
      decode16 (gx % 256) (gx / 256) = gx ∧
      decode16 (gy % 256) (gy / 256) = gy ∧
      decode16 (gw % 256) (gw / 256) = gw ∧
      decode16 (gh % 256) (gh / 256) = gh := by
  refine ⟨?_, ?_, ?_, ?_, ?_⟩
  · simp only [glyphDataBytes, glyphDataHalfwords, bytesOfHalfwords, List.flatMap_append,
      List.flatMap_cons, List.flatMap_nil, Nat.mod_eq_of_lt hx, Nat.mod_eq_of_lt hy,
      Nat.mod_eq_of_lt hw, Nat.mod_eq_of_lt hh]
    simp
  · exact Nat.mod_add_div gx 256
  · exact Nat.mod_add_div gy 256
  · exact Nat.mod_add_div gw 256
  · exact Nat.mod_add_div gh 256

/-- C5 (witness): the header layout theorem at the concrete header
`(gridX, gridY, W, H) = (300, 40, 20, 20)` with no curves. -/
theorem claim5_header_layout_witness :
    glyphDataBytes [] (1024, 1024) 300 40 20 20 =
      [300 % 256, 300 / 256, 40 % 256, 40 / 256,
       20 % 256, 20 / 256, 20 % 256, 20 / 256] ++
        bytesOfHalfwords (List.flatMap [] (fun b => bezierHalfwords b (1024, 1024))) ∧
      decode16 (300 % 256) (300 / 256) = 300 ∧
      decode16 (40 % 256) (40 / 256) = 40 ∧
      decode16 (20 % 256) (20 / 256) = 20 ∧
      decode16 (20 % 256) (20 / 256) = 20 :=
  claim5_header_layout [] (1024, 1024) 300 40 20 20
    (by norm_num) (by norm_num) (by norm_num) (by norm_num)

theorem four_mul_lor (t c : ℕ) (hc : c < 4) : t * 4 ||| c = t * 4 + c := by
  apply Nat.eq_of_testBit_eq
  intro i
  rw [Nat.testBit_lor]
  match i with
  | 0 =>
      simp only [Nat.testBit_to_div_mod, pow_zero, Nat.div_one]
      rw [← Bool.decide_or]
      exact decide_eq_decide.mpr (by omega)
  | 1 =>
      simp only [Nat.testBit_to_div_mod, pow_one]
      rw [← Bool.decide_or]
      exact decide_eq_decide.mpr (by omega)
  | (i + 2) =>
      simp only [Nat.testBit_to_div_mod]
      have e : (2 : ℕ) ^ (i + 2) = 4 * 2 ^ i := by ring
      have hp : (1 : ℕ) ≤ 2 ^ i := Nat.one_le_two_pow
      have hc0 : c / (4 * 2 ^ i) = 0 := Nat.div_eq_of_lt (by nlinarith)
      have ht : (t * 4 + c) / (4 * 2 ^ i) = t / 2 ^ i := by
        rw [← Nat.div_div_eq_div_mul]
        congr 1
        omega
      have ht2 : (t * 4) / (4 * 2 ^ i) = t / 2 ^ i := by
        rw [← Nat.div_div_eq_div_mul]
        congr 1
        omega
      rw [e, hc0, ht, ht2]
      simp

theorem shaderDecode_pack (t c : ℕ) (hc : c < 4) :
    shaderDecode (t * 4 + c) = (t, c / 2, c % 2) := by
  unfold shaderDecode
  have h1 : (t * 4 + c) >>> 2 = t := by
    rw [Nat.shiftRight_eq_div_pow]
    omega
  have h2 : ((t * 4 + c) &&& 2) >>> 1 = c / 2 := by
    have ha : (t * 4 + c) &&& 2 = ((t * 4 + c).testBit 1).toNat * 2 := by
      have := Nat.and_two_pow (t * 4 + c) 1
      simpa using this
    rw [ha, Nat.testBit_to_div_mod]
    have hd : (t * 4 + c) / 2 ^ 1 % 2 = c / 2 := by
      simp only [pow_one]
      omega
    rw [hd]
    have : c / 2 = 0 ∨ c / 2 = 1 := by omega
    rcases this with h | h <;> simp [h]
  have h3 : (t * 4 + c) &&& 1 = c % 2 := by
    rw [Nat.and_one_is_mod]
    omega
  rw [h1, h2, h3]

theorem vertexData_eq (t : ℕ) (ht : t < 2 ^ 30) (x y : ℕ)
    (hx : x < 2) (hy : y < 2) :
    ((t <<< 2) + ((x <<< 1) + y)) % 2 ^ 32 = (t <<< 2) ||| (x <<< 1) ||| y ∧
      shaderDecode (((t <<< 2) + ((x <<< 1) + y)) % 2 ^ 32) = (t, x, y) := by
  have hshl : t <<< 2 = t * 4 := by rw [Nat.shiftLeft_eq]
  have hx1 : x <<< 1 = x * 2 := by rw [Nat.shiftLeft_eq, pow_one]
  have hc : x * 2 + y < 4 := by omega
  have hmod : (t * 4 + (x * 2 + y)) % 2 ^ 32 = t * 4 + (x * 2 + y) :=
    Nat.mod_eq_of_lt (by omega)
  constructor
  · rw [hshl, hx1, hmod, Nat.lor_assoc]
    have hsmall : x * 2 ||| y = x * 2 + y := by
      interval_cases x <;> interval_cases y <;> decide
    rw [hsmall, four_mul_lor _ _ hc]
  · rw [hshl, hx1, hmod, shaderDecode_pack _ _ hc]
    have h2 : (x * 2 + y) / 2 = x := by omega
    have h3 : (x * 2 + y) % 2 = y := by omega
    rw [h2, h3]

theorem buildGlyphVerts_getD (g : Glyph) (off : ℚ × ℚ) (col : ℕ × ℕ × ℕ × ℕ)
    (j : Fin 6) :
    (buildGlyphVerts g off col).getD (j : ℕ) emptyGlyphVertex = mkVert g off col j := by
  fin_cases j <;> rfl

theorem normXOf_lt_two (j : Fin 6) : normXOf j < 2 := by
  have : normKOf j &&& 1 ≤ 1 := Nat.and_le_right
  simp only [normXOf]
  omega

theorem normYOf_lt_two (j : Fin 6) : normYOf j < 2 := by
  rw [normYOf]
  split <;> omega

/-- C6.  Every non-control glyph vertex produced by `InsertText` packs
its 32-bit attribute as `(glyphDataOffsetTexels << 2) | (normX << 1) |
normY` with `(normX, normY)` in `{0,1} x {0,1}` selecting the corner
`offset + bearing + (normX*w, normY*h)` of the glyph's em-box, and the
vertex shader's decode (`data >> 2`, bit 1, bit 0) recovers exactly the
packed values.  (`bezierAtlasPos[0]` never exceeds half a `uint16`, so
the `2^30` bound holds for every glyph the manager produces.) -/
theorem claim6_vertex_packing (g : Glyph) (off : ℚ × ℚ) (col : ℕ × ℕ × ℕ × ℕ)
    (j : Fin 6) (h0 : 0 ≤ g.bezierAtlasPos.1) (h1 : g.bezierAtlasPos.1 < 2 ^ 30) :
    ((buildGlyphVerts g off col).getD (j : ℕ) emptyGlyphVertex).data =
        (g.bezierAtlasPos.1.toNat <<< 2) ||| (normXOf j <<< 1) ||| normYOf j ∧
      shaderDecode ((buildGlyphVerts g off col).getD (j : ℕ) emptyGlyphVertex).data =
        (g.bezierAtlasPos.1.toNat, normXOf j, normYOf j) ∧
      normXOf j < 2 ∧ normYOf j < 2 ∧
      ((buildGlyphVerts g off col).getD (j : ℕ) emptyGlyphVertex).pos =
        (off.1 + (g.offset.1 : ℚ) + (normXOf j : ℚ) * (g.size.1 : ℚ),
         off.2 + (g.offset.2 : ℚ) + (normYOf j : ℚ) * (g.size.2 : ℚ)) := by
  have htn : g.bezierAtlasPos.1.toNat < 2 ^ 30 := by omega
  rw [buildGlyphVerts_getD]
  refine ⟨?_, ?_, normXOf_lt_two j, normYOf_lt_two j, ?_⟩
  · exact (vertexData_eq _ htn _ _ (normXOf_lt_two j) (normYOf_lt_two j)).1
  · exact (vertexData_eq _ htn _ _ (normXOf_lt_two j) (normYOf_lt_two j)).2
  · fin_cases j <;> refine Prod.ext ?_ ?_ <;>
      simp [mkVert, cornerBase, normXOf, normYOf, normKOf] <;> ring

/-- C6 (witness): the packing theorem at a concrete glyph
(`bezierAtlasPos[0] = 12`), vertex `j = 1` (the `(1, 0)` corner). -/
theorem claim6_vertex_packing_witness :
    (let g : Glyph :=
      { bezierAtlasPos := (12, 0), size := (1024, 2048)
        offset := (3, -5), advance := 1100 }
     ((buildGlyphVerts g (10, 20) (1, 2, 3, 255)).getD ((1 : Fin 6) : ℕ) emptyGlyphVertex).data =
        (g.bezierAtlasPos.1.toNat <<< 2) ||| (normXOf 1 <<< 1) ||| normYOf 1 ∧
      shaderDecode ((buildGlyphVerts g (10, 20) (1, 2, 3, 255)).getD ((1 : Fin 6) : ℕ) emptyGlyphVertex).data =
        (g.bezierAtlasPos.1.toNat, normXOf 1, normYOf 1) ∧
      normXOf 1 < 2 ∧ normYOf 1 < 2 ∧
      ((buildGlyphVerts g (10, 20) (1, 2, 3, 255)).getD ((1 : Fin 6) : ℕ) emptyGlyphVertex).pos =
        ((10 : ℚ) + (g.offset.1 : ℚ) + (normXOf 1 : ℚ) * (g.size.1 : ℚ),
         (20 : ℚ) + (g.offset.2 : ℚ) + (normYOf 1 : ℚ) * (g.size.2 : ℚ))) :=
  claim6_vertex_packing
    { bezierAtlasPos := (12, 0), size := (1024, 2048)
      offset := (3, -5), advance := 1100 }
    (10, 20) (1, 2, 3, 255) 1 (by decide) (by decide)

theorem length_insertList (i : ℕ) (ys xs : List α) (h : i ≤ xs.length) :
    (insertList i ys xs).length = xs.length + ys.length := by
  simp [insertList]
  omega

theorem length_eraseRange (i n : ℕ) (xs : List α) (h : i + n ≤ xs.length) :
    (eraseRange i n xs).length = xs.length - n := by
  simp [eraseRange]
  omega

theorem length_setPosAt (vs : List GlyphVertex) (k : ℕ) (p : ℚ × ℚ) :
    (setPosAt vs k p).length = vs.length := by
  simp [setPosAt]

theorem length_modifyPosAt (vs : List GlyphVertex) (k : ℕ) (f : ℚ × ℚ → ℚ × ℚ) :
    (modifyPosAt vs k f).length = vs.length := by
  simp [modifyPosAt]

theorem length_setAll :
    ∀ (ws : List GlyphVertex) (vs : List GlyphVertex) (base : ℕ),
      (setAll vs base ws).length = vs.length
  | [], _, _ => rfl
  | w :: ws, vs, base => by
      rw [setAll, length_setAll ws, List.length_set]

theorem length_foldl_modifyPosAt (l : List ℕ) (vs : List GlyphVertex)
    (key : ℕ → ℕ) (f : ℕ → (ℚ × ℚ → ℚ × ℚ)) :
    (l.foldl (fun acc j => modifyPosAt acc (key j) (f j)) vs).length = vs.length := by
  induction l generalizing vs with
  | nil => rfl
  | cons a l ih => rw [List.foldl_cons, ih, length_modifyPosAt]

theorem length_addDeltaSix (vs : List GlyphVertex) (i : ℕ) (d : ℚ × ℚ) :
    (addDeltaSix vs i d).length = vs.length :=
  length_foldl_modifyPosAt (List.range 6) vs (fun j => i * 6 + j)
    (fun _ p => (p.1 + d.1, p.2 + d.2))

theorem length_subDeltaSix (vs : List GlyphVertex) (i : ℕ) (d : ℚ × ℚ) :
    (subDeltaSix vs i d).length = vs.length :=
  length_foldl_modifyPosAt (List.range 6) vs (fun j => i * 6 + j)
    (fun _ p => (p.1 - d.1, p.2 - d.2))

theorem length_shiftAfter :
    ∀ (fuel : ℕ) (text : List ℕ) (d : ℚ × ℚ) (vs : List GlyphVertex) (i : ℕ),
      (shiftAfter fuel text d vs i).length = vs.length
  | 0, _, _, _, _ => rfl
  | fuel + 1, text, d, vs, i => by
      rw [shiftAfter]
      split
      · split
        · rfl
        · rw [length_shiftAfter fuel, length_addDeltaSix]
      · rfl

theorem length_removeShift :
    ∀ (fuel : ℕ) (text : List ℕ) (d : ℚ × ℚ) (vs : List GlyphVertex) (i : ℕ),
      (removeShift fuel text d vs i).length = vs.length
  | 0, _, _, _, _ => rfl
  | fuel + 1, text, d, vs, i => by
      rw [removeShift]
      split
      · rw [length_removeShift fuel, length_subDeltaSix]
      · rfl

theorem insertLoop_lengths (env : Env) (face : ℕ) (fh : ℤ)
    (col : ℕ × ℕ × ℕ × ℕ) (index : ℕ) :
    ∀ (chars : List ℕ) (i : ℕ) (off : ℚ × ℚ) (mgr : FontManager)
      (gs : List (Option Glyph)) (vs : List GlyphVertex),
      (insertLoop env face fh col index chars i off mgr gs vs).2.2.1.length = gs.length ∧
        (insertLoop env face fh col index chars i off mgr gs vs).2.2.2.length = vs.length := by
  intro chars
  induction chars with
  | nil => exact fun i off mgr gs vs => ⟨rfl, rfl⟩
  | cons c rest ih =>
      intro i off mgr gs vs
      simp only [insertLoop]
      split
      · exact ⟨(ih _ _ _ _ _).1, by rw [(ih _ _ _ _ _).2, length_setPosAt]⟩
      · split
        · exact ⟨(ih _ _ _ _ _).1, by rw [(ih _ _ _ _ _).2, length_setPosAt]⟩
        · split
          · exact ⟨(ih _ _ _ _ _).1, by rw [(ih _ _ _ _ _).2, length_setPosAt]⟩
          · split
            · exact ⟨(ih _ _ _ _ _).1, by rw [(ih _ _ _ _ _).2, length_setPosAt]⟩
            · exact ⟨by rw [(ih _ _ _ _ _).1, List.length_set],
                by rw [(ih _ _ _ _ _).2, length_setAll]⟩

/-- C9.  `InsertText` with an index past the current text length clamps
it to the text length, so the call is exactly an append at the end. -/
theorem claim9_insert_index_clamped (env : Env) (face : ℕ) (fh : ℤ)
    (lbl : Label) (nt : List ℕ) (idx : ℕ) (color : ℚ × ℚ × ℚ × ℚ)
    (mgr : FontManager) (h : lbl.text.length < idx) :
    insertText env face fh lbl nt idx color mgr =
      insertText env face fh lbl nt lbl.text.length color mgr := by
  simp only [insertText, Nat.min_eq_right (Nat.le_of_lt h), Nat.min_self]

/-- C9 (witness): inserting at index 5 into a one-character label equals
inserting at index 1, the text length. -/
theorem claim9_insert_index_clamped_witness :
    (let lbl : Label :=
      { text := [65], glyphs := [none]
        verts := List.replicate 6 emptyGlyphVertex, caretTime := 0 }
     insertText simEnv 0 0 lbl [66] 5 (0, 0, 0, 1) initMgr =
       insertText simEnv 0 0 lbl [66] lbl.text.length (0, 0, 0, 1) initMgr) :=
  claim9_insert_index_clamped simEnv 0 0 _ [66] 5 (0, 0, 0, 1) initMgr (by decide)

/-- C10.  The invariants `glyphs.size() == text.size()` and
`verts.size() == 6 * text.size()` are preserved by every `InsertText`
and every `RemoveText` call: both operations insert or erase text,
glyph pointers and vertices in lockstep, and the placement and shift
loops only overwrite elements in place. -/
theorem claim10_size_invariants (env : Env) (face : ℕ) (fh : ℤ)
    (lbl : Label) (nt : List ℕ) (idx : ℕ) (color : ℚ × ℚ × ℚ × ℚ)
    (mgr : FontManager) (ridx rlen : ℕ)
    (hg : lbl.glyphs.length = lbl.text.length)
    (hv : lbl.verts.length = 6 * lbl.text.length) :
    ((insertText env face fh lbl nt idx color mgr).1.glyphs.length =
        (insertText env face fh lbl nt idx color mgr).1.text.length ∧
      (insertText env face fh lbl nt idx color mgr).1.verts.length =
        6 * (insertText env face fh lbl nt idx color mgr).1.text.length) ∧
      ((removeText lbl ridx rlen).glyphs.length =
          (removeText lbl ridx rlen).text.length ∧
        (removeText lbl ridx rlen).verts.length =
          6 * (removeText lbl ridx rlen).text.length) := by
  constructor
  · have hmin : min idx lbl.text.length ≤ lbl.text.length := Nat.min_le_right _ _
    have ht := length_insertList (min idx lbl.text.length) nt lbl.text hmin
    have hgl := length_insertList (min idx lbl.text.length)
      (List.replicate nt.length none) lbl.glyphs (by omega)
    have hvl := length_insertList (min idx lbl.text.length * 6)
      (List.replicate (nt.length * 6) emptyGlyphVertex) lbl.verts (by omega)
    simp only [insertText]
    constructor
    · rw [(insertLoop_lengths env face fh (colorBytes color) _ nt 0 _ mgr _ _).1]
      rw [hgl, ht]
      simp [List.length_replicate]
      omega
    · rw [length_shiftAfter, (insertLoop_lengths env face fh (colorBytes color) _ nt 0 _ mgr _ _).2]
      rw [hvl, ht]
      simp [List.length_replicate]
      omega
  · by_cases hcase : lbl.text.length ≤ ridx
    · rw [removeText, if_pos hcase]
      exact ⟨hg, hv⟩
    · rw [removeText, if_neg hcase]
      simp only
      have hle : ridx + (if lbl.text.length < ridx + rlen
          then lbl.text.length - ridx else rlen) ≤ lbl.text.length := by
        split <;> omega
      have ht := length_eraseRange ridx
        (if lbl.text.length < ridx + rlen then lbl.text.length - ridx else rlen)
        lbl.text hle
      have hgl := length_eraseRange ridx
        (if lbl.text.length < ridx + rlen then lbl.text.length - ridx else rlen)
        lbl.glyphs (by omega)
      have hvl := length_eraseRange (ridx * 6)
        ((if lbl.text.length < ridx + rlen then lbl.text.length - ridx else rlen) * 6)
        lbl.verts (by omega)
      constructor
      · rw [hgl, ht]
        omega
      · rw [length_removeShift, hvl, ht]
        omega

/-- C10 (witness): the invariants on a concrete one-character label,
inserting one character at 0 and removing one character at 0. -/
theorem claim10_size_invariants_witness :
    (let lbl : Label :=
      { text := [65], glyphs := [none]
        verts := List.replicate 6 emptyGlyphVertex, caretTime := 0 }
     ((insertText simEnv 0 0 lbl [66] 0 (0, 0, 0, 1) initMgr).1.glyphs.length =
        (insertText simEnv 0 0 lbl [66] 0 (0, 0, 0, 1) initMgr).1.text.length ∧
      (insertText simEnv 0 0 lbl [66] 0 (0, 0, 0, 1) initMgr).1.verts.length =
        6 * (insertText simEnv 0 0 lbl [66] 0 (0, 0, 0, 1) initMgr).1.text.length) ∧
      ((removeText lbl 0 1).glyphs.length = (removeText lbl 0 1).text.length ∧
        (removeText lbl 0 1).verts.length = 6 * (removeText lbl 0 1).text.length)) :=
  claim10_size_invariants simEnv 0 0 _ [66] 0 (0, 0, 0, 1) initMgr 0 1
    (by decide) (by decide)

end GLLabel
